import Mathlib

/-!
# A verification development for the crudearchive container format

This file gives a shallow embedding, in Lean 4, of the core of the
`crudearchive` repository (`common.py`, `archive_handler.py`) and proves
properties of that embedding.

Conventions used throughout:

* Python `bytes` values are embedded as `List Nat`, each element intended to be
  `< 256`; where a statement depends on that bound it is an explicit hypothesis.
* Python `dict`s are embedded as insertion-ordered association lists together
  with operations (`dictGet`, `dictSet`, `dictErase`) that mirror the exact
  CPython semantics: assignment to an existing key updates the value in place
  (keeping the key's position), assignment to a fresh key appends.
* A Python method that mutates `self` and may `raise` is embedded as a function
  returning the new state together with an optional error; when an exception is
  raised before any mutation the returned state equals the input state.
* Loops whose termination is in question are embedded fuel-indexed; a result of
  `none` for every fuel value witnesses that the source loop never terminates.
-/

namespace CrudeArch

/-! ## Python string / dict helpers -/

/-- Python bytes: a list of byte values (each meant to be `< 256`). -/
abbrev Bytes := List Nat

/-- Python `str.lower()` on one character (ASCII letters; `str.lower` also
lowercases non-ASCII letters, which no string handled here contains). -/
def charLower (c : Char) : Char :=
  if 65 ≤ c.toNat ∧ c.toNat ≤ 90 then Char.ofNat (c.toNat + 32) else c

/-- Python `s.lower()` (ASCII). -/
def pyToLower (s : String) : String :=
  String.mk (s.data.map charLower)

/-- Python `str.strip('.')`: removes *leading and trailing* `'.'` characters
(CPython strips from both ends). -/
def pyStripDots (s : String) : String :=
  String.mk (((s.data.dropWhile (fun c => c = '.')).reverse.dropWhile
    (fun c => c = '.')).reverse)

/-- Python `s.split(sep)` for a single-character separator (never returns an
empty list; splitting the empty string gives `[""]`). -/
def splitOnChar (sep : Char) : List Char → List (List Char)
  | [] => [[]]
  | c :: rest =>
    let r := splitOnChar sep rest
    if c = sep then [] :: r
    else
      match r with
      | [] => [[c]]
      | g :: gs => (c :: g) :: gs

/-- Python `name.split('.')`. -/
def pySplitDot (s : String) : List String :=
  (splitOnChar '.' s.data).map String.mk

/-- Python `'.' in name`. -/
def strContainsDot (s : String) : Bool :=
  s.data.any (fun c => c = '.')

/-- Lookup in an insertion-ordered dict (first occurrence; keys are unique in
any list built with `dictSet`). -/
def dictGet {α : Type} (l : List (String × α)) (k : String) : Option α :=
  match l with
  | [] => none
  | (k', v) :: rest => if k' = k then some v else dictGet rest k

/-- CPython `d[k] = v`: updating an existing key keeps its position, a new key
is appended at the end. -/
def dictSet {α : Type} (l : List (String × α)) (k : String) (v : α) :
    List (String × α) :=
  match l with
  | [] => [(k, v)]
  | (k', v') :: rest =>
    if k' = k then (k', v) :: rest else (k', v') :: dictSet rest k v

/-- CPython `del d[k]` (for a dict, which never holds duplicate keys). -/
def dictErase {α : Type} (l : List (String × α)) (k : String) :
    List (String × α) :=
  l.filter (fun p => p.1 ≠ k)

/-- Python `name.split('.')[-1] if '.' in name else 'bin'`, the extension
inference of `CrudeArchiveHandler.add_file` (archive_handler.py line 171). -/
def extFromName (name : String) : String :=
  if strContainsDot name then (pySplitDot name).getLastD "" else "bin"

/-! ## `ArchiveCommon` constants (common.py) -/

/-- `ArchiveCommon.SUPPORTED_TYPES` (common.py lines 15–37): the union of the
media, model, numeric, font and script sets plus `txt`, `bin`, `md`. -/
def supportedTypes : List String :=
  ["png", "jpg", "jpeg", "gif", "bmp", "tga",
   "mp3", "wav", "ogg",
   "mp4", "mpg", "avi", "mov",
   "obj", "stl", "ply",
   "fbx", "gltf", "glb", "dae",
   "3ds", "blend",
   "npy", "npz", "hdf5",
   "ttf", "otf", "woff", "woff2",
   "py", "json", "xml", "yaml",
   "txt", "bin", "md"]

/-- `ArchiveCommon.RESTRICTED_TYPES` (common.py line 40). (A stray module-level
`RESTRICTED_TYPES` without `js`/`vbs` exists in archive_handler.py line 36 but
is never read; all checks go through `ArchiveCommon`.) -/
def restrictedTypes : List String :=
  ["exe", "dll", "bat", "sh", "php", "js", "vbs"]

/-- `ArchiveCommon.SIZE_LIMITS` (common.py lines 43–47), in bytes. -/
def sizeLimits : List (String × Nat) :=
  [("default", 100 * 1024 * 1024),
   ("mp4", 500 * 1024 * 1024),
   ("glb", 200 * 1024 * 1024)]

/-- `ArchiveCommon.MIME_TYPE_MAP` (common.py lines 50–72).

Note: in the source the dict literal is not valid Python — there is no comma
between the values of the `woff` and `woff2` entries (lines 70–71), so the
adjacent string literals would concatenate and the following `:` is a
`SyntaxError`; the module cannot even be imported as written.  The table below
restores the evident intent (two separate entries). -/
def mimeTypeMap : List (String × String) :=
  [("obj", "application/wavefront-obj"),
   ("fbx", "application/octet-stream"),
   ("gltf", "model/gltf+json"),
   ("glb", "model/gltf-binary"),
   ("png", "image/png"),
   ("jpg", "image/jpeg"),
   ("mp3", "audio/mpeg"),
   ("mp4", "video/mp4"),
   ("npy", "application/x-numpy-data"),
   ("hdf5", "application/x-hdf5"),
   ("ttf", "font/ttf"),
   ("otf", "font/otf"),
   ("woff", "font/woff"),
   ("woff2", "font/woff2")]

/-- `ArchiveCommon.get_mime_type` (common.py lines 88–92):
`extension.lower().strip('.')`, then table lookup defaulting to
`application/octet-stream`. -/
def getMimeType (extension : String) : String :=
  (dictGet mimeTypeMap (pyStripDots (pyToLower extension))).getD
    "application/octet-stream"

/-- `ArchiveCommon.validate_file_type` (common.py lines 123–131): supported and
not restricted, after `lower().strip('.')` normalization. -/
def validateFileType (fileType : String) : Bool :=
  let t := pyStripDots (pyToLower fileType)
  supportedTypes.contains t && !(restrictedTypes.contains t)

/-- `ArchiveCommon.validate_file_size` (common.py lines 133–139):
`len(data) <= SIZE_LIMITS.get(file_type, SIZE_LIMITS['default'])`. -/
def validateFileSize (data : Bytes) (fileType : String) : Bool :=
  let t := pyStripDots (pyToLower fileType)
  let maxSize := (dictGet sizeLimits t).getD
    ((dictGet sizeLimits "default").getD 0)
  data.length ≤ maxSize

/-- `p` occurs as a contiguous sublist of `l` (Python `p in l` for bytes). -/
def bytesContains (l p : Bytes) : Bool :=
  (List.range (l.length + 1)).any (fun i => p.isPrefixOf (l.drop i))

/-- `ArchiveCommon._check_magic_numbers` (common.py lines 166–191).  The
`signatures` dict entries, written out per extension; extensions without an
entry pass unconditionally.  `mp3`'s tuple means: starts with `ID3` *or*
`data[1:4] == b'MP3'`; `obj`/`fbx` search the first 100 bytes. -/
def checkMagicNumbers (data : Bytes) (fileType : String) : Bool :=
  match pyToLower fileType with
  | "png" => [0x89, 0x50, 0x4E, 0x47].isPrefixOf data
  | "jpg" => [0xFF, 0xD8].isPrefixOf data
  | "gif" => [0x47, 0x49, 0x46].isPrefixOf data
  | "zip" => [0x50, 0x4B, 0x03, 0x04].isPrefixOf data
  | "pdf" => [0x25, 0x50, 0x44, 0x46].isPrefixOf data
  | "mp3" =>
    [0x49, 0x44, 0x33].isPrefixOf data ||
      ((data.drop 1).take 3 == [0x4D, 0x50, 0x33])
  | "obj" => bytesContains (data.take 100) [0x76, 0x20]
  | "fbx" => bytesContains (data.take 100) [0x4B, 0x61, 0x79, 0x64, 0x61, 0x72, 0x61]
  | _ => true

/-- `ArchiveCommon.validate_file` (common.py lines 142–164): the comprehensive
pipeline — supported, not restricted, within size limit, magic number ok.
(None of the `add_file`-family methods actually call it; see the theorems
below.) -/
def validateFile (data : Bytes) (fileType : String) : Bool :=
  let t := pyStripDots (pyToLower fileType)
  if !(supportedTypes.contains t) then false
  else if restrictedTypes.contains t then false
  else if data.length >
      (dictGet sizeLimits t).getD ((dictGet sizeLimits "default").getD 0) then
    false
  else if !(checkMagicNumbers data t) then false
  else true

/-! ## JSON values

`save`/`load` go through `json.dumps`/`json.loads`.  JSON values are embedded
as the inductive `Json`; floats never occur in any data the handler writes
(all numbers involved are Python `int`s), so numbers are embedded as `Int`. -/

inductive Json where
  | null : Json
  | bool (b : Bool) : Json
  | num (n : Int) : Json
  | str (s : String) : Json
  | arr (elems : List Json) : Json
  | obj (members : List (String × Json)) : Json
deriving Repr

/-! ## The archive state

`CrudeArchiveHandler` keeps `self.files : Dict[str, {'content': bytes,
'type': str}]` and `self._3d_metadata : Dict[str, {'lod': Dict[int, bytes],
'animations': ..., 'materials': ...}]`. -/

/-- One entry of `self.files`: the `{'content': ..., 'type': ...}` dict. -/
structure FileEntry where
  ftype : String
  content : Bytes
deriving Repr, DecidableEq

/-- One entry of `self._3d_metadata`.  `animations` and `materials` are kept
as JSON-shaped data, which is how `load` stores them (`meta['animations']`,
`meta['materials']` verbatim from the parsed document). -/
structure ModelMeta where
  lod : List (Int × Bytes)
  animations : Json
  materials : Json

/-- The mutable state of a `CrudeArchiveHandler` (minus `self.filename`,
which only names the backing file). -/
structure Archive where
  files : List (String × FileEntry)
  meta3d : List (String × ModelMeta)

/-- A fresh handler (`__init__` / `create`). -/
def emptyArchive : Archive := { files := [], meta3d := [] }

/-- The error kinds of the spec's taxonomy (§7) plus the concrete exception
sites of the source.  `add_file`'s only raise site is
`ValueError(f"Unsupported file type: ...")`, embedded as `unsupportedType`;
`restrictedType`, `oversizeFile` and `signatureMismatch` appear in the spec's
taxonomy but no raise site of the source produces them. -/
inductive ArchiveError where
  | unsupportedType (ft : String) : ArchiveError
  | unsupported3DFormat (ext : String) : ArchiveError
  | attributeError (missing : String) : ArchiveError
  | invalidFormat : ArchiveError
  | unicodeDecodeError : ArchiveError
  | jsonDecodeError : ArchiveError
  | keyError (k : String) : ArchiveError
  | typeError : ArchiveError
  | binasciiError : ArchiveError
  | restrictedType : ArchiveError
  | oversizeFile : ArchiveError
  | signatureMismatch : ArchiveError
  | notFound : ArchiveError
deriving Repr, DecidableEq

/-- Result of a state-mutating handler method: the state after the call and
the exception it raised, if any. -/
structure AddResult where
  state : Archive
  err : Option ArchiveError

/-- The `content: Union[bytes, str]` argument of `add_file`. -/
inductive PyData where
  | bytes (bs : Bytes) : PyData
  | str (s : String) : PyData

/-- UTF-8 encoding of one unicode scalar value. -/
def utf8EncodeChar (n : Nat) : Bytes :=
  if n < 0x80 then [n]
  else if n < 0x800 then [0xC0 + n / 64, 0x80 + n % 64]
  else if n < 0x10000 then
    [0xE0 + n / 4096, 0x80 + n / 64 % 64, 0x80 + n % 64]
  else
    [0xF0 + n / 262144, 0x80 + n / 4096 % 64, 0x80 + n / 64 % 64,
     0x80 + n % 64]

/-- Python `s.encode('utf-8')`. -/
def utf8Encode (s : String) : Bytes :=
  s.data.flatMap (fun c => utf8EncodeChar c.toNat)

/-- `CrudeArchiveHandler.add_file` (archive_handler.py lines 168–182): infer
the type from the name when absent, check `ArchiveCommon.validate_file_type`
(raising `ValueError("Unsupported file type: ...")` when it fails — the state
is untouched in that case), utf-8–encode `str` content, then
`self.files[name] = {'content': content, 'type': file_type}`. -/
def addFile (a : Archive) (name : String) (content : PyData)
    (fileType : Option String) : AddResult :=
  let ft := fileType.getD (extFromName name)
  if validateFileType ft then
    let bs := match content with
      | .bytes bs => bs
      | .str s => utf8Encode s
    { state := { a with
        files := dictSet a.files name { ftype := ft, content := bs } },
      err := none }
  else
    { state := a, err := some (.unsupportedType ft) }

/-- `CrudeArchiveHandler.get_file` (lines 938–942). -/
def getFile (a : Archive) (name : String) : Option Bytes :=
  (dictGet a.files name).map (fun e => e.content)

/-- `CrudeArchiveHandler.get_file_info` (lines 944–948). -/
def getFileInfo (a : Archive) (name : String) : Option FileEntry :=
  dictGet a.files name

/-- `CrudeArchiveHandler.remove_file` (lines 950–953):
`if name in self.files: del self.files[name]` — a silent no-op when the entry
is absent. -/
def removeFile (a : Archive) (name : String) : Archive :=
  if (dictGet a.files name).isSome then
    { a with files := dictErase a.files name }
  else a

/-- `CrudeArchiveHandler.list_files` (lines 955–957). -/
def listFiles (a : Archive) : List String :=
  a.files.map (fun p => p.1)

/-! ## MP3 bitrate lookup (archive_handler.py lines 505–522) -/

/-- Python list indexing `l[i]` with negative indices counting from the end;
out-of-range access (`IndexError`) is mapped to the supplied default — every
use below is in range for the argument ranges that occur. -/
def pyGetD {α : Type} (l : List α) (i : Int) (d : α) : α :=
  if 0 ≤ i then (l.get? i.toNat).getD d
  else if (-i).toNat ≤ l.length then
    (l.get? (l.length - (-i).toNat)).getD d
  else d

/-- The literal `bitrates` table of `_get_mp3_bitrate`:
`[version][layer][bitrate_index]`, two version groups (MPEG 1 and MPEG 2/2.5),
three layer rows each, exactly as in the source. -/
def mp3BitrateTables : List (List (List Nat)) :=
  [[[0, 32, 64, 96, 128, 160, 192, 224, 256, 288, 320, 352, 384, 416, 448],
    [0, 32, 48, 56, 64, 80, 96, 112, 128, 160, 192, 224, 256, 320, 384],
    [0, 32, 40, 48, 56, 64, 80, 96, 112, 128, 160, 192, 224, 256, 320]],
   [[0, 32, 48, 56, 64, 80, 96, 112, 128, 144, 160, 176, 192, 224, 256],
    [0, 8, 16, 24, 32, 40, 48, 56, 64, 80, 96, 112, 128, 144, 160],
    [0, 8, 16, 24, 32, 40, 48, 56, 64, 80, 96, 112, 128, 144, 160]]]

/-- `CrudeArchiveHandler._get_mp3_bitrate` (lines 505–522):
`version_idx = 0 if version == 1 else 1`, `layer_idx = min(layer-1, 2)`
(computed over Python ints, so `layer = 0` yields index `-1`, the *last* row),
then `bitrates[version_idx][layer_idx][idx] * 1000 if idx < 15 else 0`. -/
def getMp3Bitrate (version layer idx : Nat) : Nat :=
  let versionIdx : Int := if version = 1 then 0 else 1
  let layerIdx : Int := min ((layer : Int) - 1) 2
  if idx < 15 then
    (pyGetD (pyGetD (pyGetD mp3BitrateTables versionIdx []) layerIdx [])
      (idx : Int) 0) * 1000
  else 0

/-! ## 3D model import (archive_handler.py lines 221–266, 298–303) -/

/-- The keys of the `ArchiveCommon.MODEL_FORMATS` dict (common.py lines
21–25).  `add_3d_data_model` tests `ext not in ArchiveCommon.MODEL_FORMATS`,
and membership on a Python dict checks its *keys* — the category names — not
the extension sets stored under them. -/
def modelFormatCategories : List String := ["static", "animated", "industry"]

/-- `CrudeArchiveHandler.add_3d_data_model` (lines 221–242):
`ext = name.split('.')[-1].lower()`; `if ext not in
ArchiveCommon.MODEL_FORMATS: raise ValueError(f"Unsupported 3D format: ...")`
— which fires for every real model extension (`obj`, `fbx`, ...), since the
dict's keys are the category names.  Any `ext` that *does* equal a category
name reaches `validate_model_file`, whose first statement reads
`ArchiveCommon.MAX_MODEL_SIZE`; no such attribute is defined anywhere in the
source, so that path raises `AttributeError` before touching the state. -/
def add3dDataModel (a : Archive) (name : String) (data : Bytes)
    (lodLevels : Nat) (includeTextures : Bool) : AddResult :=
  let ext := pyToLower ((pySplitDot name).getLastD "")
  if !(modelFormatCategories.contains ext) then
    { state := a, err := some (.unsupported3DFormat ext) }
  else
    { state := a, err := some (.attributeError "MAX_MODEL_SIZE") }

/-! ## MP4 atom walk (archive_handler.py lines 468–488) -/

/-- Python `bytes.decode('ascii', errors='ignore')`: keep only bytes `< 128`.
Used for atom types and the `ftyp` brand. -/
def asciiIgnore (bs : Bytes) : String :=
  String.mk ((bs.filter (fun b => b < 128)).map Char.ofNat)

/-- `struct.unpack('>I', ...)` of the 4 bytes at `pos` (all call sites
guarantee 4 bytes are available). -/
def be32 (data : Bytes) (pos : Nat) : Nat :=
  ((data.drop pos).take 4).foldl (fun acc b => acc * 256 + b) 0

/-- Exceptions that can escape the atom walk. -/
inductive PyExn where
  | attributeError (missing : String) : PyExn
  | structError : PyExn
deriving Repr, DecidableEq

/-- The metadata dict built by `_parse_mp4_atoms`.  `width`/`height` are the
16.16 fixed-point values divided by 65536 (exact in binary floating point for
32-bit numerators, so `Rat` represents the Python float exactly). -/
structure Mp4Meta where
  codec : Option String := none
  width : Option Rat := none
  height : Option Rat := none
deriving Repr

/-- One-loop-iteration-per-fuel-unit embedding of the `while` loop of
`CrudeArchiveHandler._parse_mp4_atoms` (lines 468–488):

* loop guard `pos < len(data) - 8` (over Python ints);
* `atom_size` = big-endian 32-bit at `pos`, `atom_type` = ascii-decoded bytes
  `[pos+4, pos+8)`;
* on `moov` the source calls `self._parse_moov_atom`, a method that is not
  defined anywhere in the file, so that branch raises `AttributeError`;
* on `ftyp` it records the brand; on `tkhd` (guarded by `pos + 80 <
  len(data)`) it reads width at `[pos+76, pos+80)` and height at
  `[pos+80, pos+84)` — the height read raises `struct.error` if fewer than 4
  bytes remain;
* then `pos += atom_size`, with **no** progress check: a zero `atom_size`
  repeats the iteration at the same `pos` forever.

`none` means the fuel ran out, i.e. the source loop is still running;
`some (.ok md)` is normal termination, `some (.error e)` an exception. -/
def parseMp4AtomsFuel : Nat → Bytes → Nat → Mp4Meta →
    Option (Except PyExn Mp4Meta)
  | 0, _, _, _ => none
  | fuel + 1, data, pos, md =>
    if pos + 8 < data.length then
      let atomSize := be32 data pos
      let atomType := asciiIgnore ((data.drop (pos + 4)).take 4)
      if atomType = "moov" then
        some (.error (.attributeError "_parse_moov_atom"))
      else if atomType = "ftyp" then
        parseMp4AtomsFuel fuel data (pos + atomSize)
          { md with codec := some (asciiIgnore ((data.drop (pos + 8)).take 4)) }
      else if atomType = "tkhd" ∧ pos + 80 < data.length then
        if pos + 84 ≤ data.length then
          parseMp4AtomsFuel fuel data (pos + atomSize)
            { md with
              width := some ((be32 data (pos + 76) : Rat) / 65536),
              height := some ((be32 data (pos + 80) : Rat) / 65536) }
        else some (.error .structError)
      else
        parseMp4AtomsFuel fuel data (pos + atomSize) md
    else some (.ok md)

/-! ## Base64 (`base64.b64encode` / `base64.b64decode`, used by
`ArchiveCommon.encode_content` / `decode_content`, common.py lines 94–102) -/

def b64Alphabet : List Char :=
  "ABCDEFGHIJKLMNOPQRSTUVWXYZabcdefghijklmnopqrstuvwxyz0123456789+/".data

def sextetChar (n : Nat) : Char := b64Alphabet.getD n 'A'

/-- RFC 4648 base64 of a byte string, with `'='` padding — the encoding
`base64.b64encode` performs. -/
def base64Encode : Bytes → List Char
  | [] => []
  | [a] => [sextetChar (a / 4), sextetChar (a % 4 * 16), '=', '=']
  | [a, b] => [sextetChar (a / 4), sextetChar (a % 4 * 16 + b / 16),
               sextetChar (b % 16 * 4), '=']
  | a :: b :: c :: rest =>
    sextetChar (a / 4) :: sextetChar (a % 4 * 16 + b / 16) ::
      sextetChar (b % 16 * 4 + c / 64) :: sextetChar (c % 64) ::
      base64Encode rest

def sextetVal (c : Char) : Option Nat :=
  let n := c.toNat
  if 65 ≤ n ∧ n ≤ 90 then some (n - 65)
  else if 97 ≤ n ∧ n ≤ 122 then some (n - 71)
  else if 48 ≤ n ∧ n ≤ 57 then some (n + 4)
  else if n = 43 then some 62
  else if n = 47 then some 63
  else none

/-- Base64 decoding (`base64.b64decode`): groups of four alphabet characters
become three bytes; a final `xx==` / `xxx=` group becomes one / two bytes;
anything else is a `binascii.Error`. -/
def base64Decode : List Char → Option Bytes
  | [] => some []
  | c1 :: c2 :: c3 :: c4 :: rest =>
    match sextetVal c1, sextetVal c2 with
    | some v1, some v2 =>
      if c3 = '=' then
        if c4 = '=' ∧ rest = [] then some [v1 * 4 + v2 / 16] else none
      else
        match sextetVal c3 with
        | some v3 =>
          if c4 = '=' then
            if rest = [] then some [v1 * 4 + v2 / 16, v2 % 16 * 16 + v3 / 4]
            else none
          else
            match sextetVal c4, base64Decode rest with
            | some v4, some bs =>
              some ((v1 * 4 + v2 / 16) :: (v2 % 16 * 16 + v3 / 4) ::
                (v3 % 4 * 64 + v4) :: bs)
            | _, _ => none
        | none => none
    | _, _ => none
  | _ => none

theorem sextetVal_sextetChar : ∀ n < 64, sextetVal (sextetChar n) = some n := by
  decide

theorem sextetChar_ne_pad : ∀ n < 64, sextetChar n ≠ '=' := by
  decide

theorem base64_roundtrip : ∀ (bs : Bytes), (∀ b ∈ bs, b < 256) →
    base64Decode (base64Encode bs) = some bs := by
  intro bs
  induction bs using base64Encode.induct with
  | case1 => intro _; rfl
  | case2 a =>
    intro h
    have ha : a < 256 := h a (by simp)
    have h1 := sextetVal_sextetChar (a / 4) (by omega)
    have h2 := sextetVal_sextetChar (a % 4 * 16) (by omega)
    have hne := sextetChar_ne_pad (a % 4 * 16) (by omega)
    simp [base64Encode, base64Decode, h1, h2]
    omega
  | case3 a b =>
    intro h
    have ha : a < 256 := h a (by simp)
    have hb : b < 256 := h b (by simp)
    have h1 := sextetVal_sextetChar (a / 4) (by omega)
    have h2 := sextetVal_sextetChar (a % 4 * 16 + b / 16) (by omega)
    have h3 := sextetVal_sextetChar (b % 16 * 4) (by omega)
    have hne := sextetChar_ne_pad (b % 16 * 4) (by omega)
    simp [base64Encode, base64Decode, h1, h2, h3, hne]
    omega
  | case4 a b c rest ih =>
    intro h
    have ha : a < 256 := h a (by simp)
    have hb : b < 256 := h b (by simp)
    have hc : c < 256 := h c (by simp)
    have hrest := ih (fun x hx => h x (by simp [hx]))
    have h1 := sextetVal_sextetChar (a / 4) (by omega)
    have h2 := sextetVal_sextetChar (a % 4 * 16 + b / 16) (by omega)
    have h3 := sextetVal_sextetChar (b % 16 * 4 + c / 64) (by omega)
    have h4 := sextetVal_sextetChar (c % 64) (by omega)
    have hne3 := sextetChar_ne_pad (b % 16 * 4 + c / 64) (by omega)
    have hne4 := sextetChar_ne_pad (c % 64) (by omega)
    simp [base64Encode, base64Decode, h1, h2, h3, h4, hne3, hne4, hrest]
    refine ⟨by omega, by omega, by omega⟩

/-- `ArchiveCommon.encode_content` (common.py lines 94–97):
`base64.b64encode(content).decode('utf-8')`. -/
def encodeContent (content : Bytes) : String :=
  String.mk (base64Encode content)

/-- `ArchiveCommon.decode_content` (common.py lines 99–102):
`base64.b64decode(encoded.encode('utf-8'))`. -/
def decodeContent (encoded : String) : Option Bytes :=
  base64Decode encoded.data

theorem decodeContent_encodeContent (bs : Bytes) (h : ∀ b ∈ bs, b < 256) :
    decodeContent (encodeContent bs) = some bs :=
  base64_roundtrip bs h

/-! ## UTF-8 decoding (Python `bytes.decode('utf-8')`) -/

/-- One UTF-8 scalar given the lead byte `b` and the remaining bytes: returns
the scalar value and the number of continuation bytes consumed, rejecting
overlong forms, surrogates and out-of-range values, as CPython's strict
decoder does. -/
def utf8DecodeStep (b : Nat) (rest : Bytes) : Option (Nat × Nat) :=
  if b < 0x80 then some (b, 0)
  else if b < 0xC2 then none
  else if b < 0xE0 then
    (rest.get? 0).bind (fun b1 =>
      if 0x80 ≤ b1 ∧ b1 < 0xC0 then some ((b - 0xC0) * 64 + (b1 - 0x80), 1)
      else none)
  else if b < 0xF0 then
    (rest.get? 0).bind (fun b1 => (rest.get? 1).bind (fun b2 =>
      if (0x80 ≤ b1 ∧ b1 < 0xC0) ∧ (0x80 ≤ b2 ∧ b2 < 0xC0) then
        let v := (b - 0xE0) * 4096 + (b1 - 0x80) * 64 + (b2 - 0x80)
        if 0x800 ≤ v ∧ ¬(0xD800 ≤ v ∧ v < 0xE000) then some (v, 2) else none
      else none))
  else if b < 0xF5 then
    (rest.get? 0).bind (fun b1 => (rest.get? 1).bind (fun b2 =>
      (rest.get? 2).bind (fun b3 =>
        if (0x80 ≤ b1 ∧ b1 < 0xC0) ∧ (0x80 ≤ b2 ∧ b2 < 0xC0) ∧
            (0x80 ≤ b3 ∧ b3 < 0xC0) then
          let v := (b - 0xF0) * 262144 + (b1 - 0x80) * 4096 +
            (b2 - 0x80) * 64 + (b3 - 0x80)
          if 0x10000 ≤ v ∧ v < 0x110000 then some (v, 3) else none
        else none)))
  else none

/-- Strict UTF-8 decoding of a whole byte string into scalar values. -/
def utf8DecodeChars (bs : Bytes) : Option (List Char) :=
  match bs with
  | [] => some []
  | b :: rest =>
    match utf8DecodeStep b rest with
    | some (v, k) =>
      (utf8DecodeChars (rest.drop k)).map (fun cs => Char.ofNat v :: cs)
    | none => none
termination_by bs.length
decreasing_by simp [List.length_drop]; omega

/-- Python `bytes.decode('utf-8')`. -/
def utf8Decode (bs : Bytes) : Option String :=
  (utf8DecodeChars bs).map String.mk

theorem stringMkData (s : String) : String.mk s.data = s := by
  cases s
  rfl

theorem utf8DecodeChars_ascii : ∀ (cs : List Char),
    (∀ c ∈ cs, c.toNat < 128) →
    utf8DecodeChars (cs.flatMap (fun c => utf8EncodeChar c.toNat)) = some cs := by
  intro cs
  induction cs with
  | nil =>
    intro _
    show utf8DecodeChars [] = some []
    rw [utf8DecodeChars]
  | cons c rest ih =>
    intro h
    have hc : c.toNat < 128 := h c (by simp)
    have hrest := ih (fun x hx => h x (by simp [hx]))
    have henc : utf8EncodeChar c.toNat = [c.toNat] := by
      rw [utf8EncodeChar, if_pos (by omega)]
    have hstep : utf8DecodeStep c.toNat
        (rest.flatMap (fun c => utf8EncodeChar c.toNat))
        = some (c.toNat, 0) := by
      simp only [utf8DecodeStep]
      rw [if_pos (by omega : c.toNat < 0x80)]
    show utf8DecodeChars (utf8EncodeChar c.toNat ++
      rest.flatMap (fun c => utf8EncodeChar c.toNat)) = _
    rw [henc]
    show utf8DecodeChars (c.toNat ::
      rest.flatMap (fun c => utf8EncodeChar c.toNat)) = _
    rw [utf8DecodeChars]
    rw [hstep]
    show (utf8DecodeChars ((rest.flatMap
        (fun c => utf8EncodeChar c.toNat)).drop 0)).map
      (fun cs => Char.ofNat c.toNat :: cs) = _
    rw [List.drop_zero, hrest, Option.map_some', Char.ofNat_toNat]

theorem utf8Decode_utf8Encode_ascii (s : String)
    (h : ∀ c ∈ s.data, c.toNat < 128) :
    utf8Decode (utf8Encode s) = some s := by
  have hd := utf8DecodeChars_ascii s.data h
  simp [utf8Decode, utf8Encode, hd, stringMkData]

/-! ## JSON string escaping (`json.dumps` with the default `ensure_ascii=True`)
and unescaping (`json.loads`) -/

def hexDigit (n : Nat) : Char := "0123456789abcdef".data.getD n '0'

/-- `%04x`: the four lowercase hex digits of `n < 0x10000`. -/
def hex4 (n : Nat) : List Char :=
  [hexDigit (n / 4096 % 16), hexDigit (n / 256 % 16), hexDigit (n / 16 % 16),
   hexDigit (n % 16)]

def hexVal (c : Char) : Option Nat :=
  let n := c.toNat
  if 48 ≤ n ∧ n ≤ 57 then some (n - 48)
  else if 97 ≤ n ∧ n ≤ 102 then some (n - 87)
  else if 65 ≤ n ∧ n ≤ 70 then some (n - 55)
  else none

/-- How `json.dumps` (with `ensure_ascii=True`, the default used by `save`)
emits one character: `\"`/`\\`, the short escapes `\b \t \n \f \r`, `\u00xx`
for other control characters, printable ASCII verbatim, `\uxxxx` for other
BMP characters and a `\ud8xx\udcxx` surrogate pair for astral characters. -/
def escChar (c : Char) : List Char :=
  if c = '"' then ['\\', '"']
  else if c = '\\' then ['\\', '\\']
  else if c = Char.ofNat 8 then ['\\', 'b']
  else if c = Char.ofNat 9 then ['\\', 't']
  else if c = Char.ofNat 10 then ['\\', 'n']
  else if c = Char.ofNat 12 then ['\\', 'f']
  else if c = Char.ofNat 13 then ['\\', 'r']
  else if c.toNat < 0x20 then '\\' :: 'u' :: hex4 c.toNat
  else if c.toNat ≤ 0x7E then [c]
  else if c.toNat < 0x10000 then '\\' :: 'u' :: hex4 c.toNat
  else
    ('\\' :: 'u' :: hex4 (0xD800 + (c.toNat - 0x10000) / 1024)) ++
      ('\\' :: 'u' :: hex4 (0xDC00 + (c.toNat - 0x10000) % 1024))

def escapeChars : List Char → List Char
  | [] => []
  | c :: rest => escChar c ++ escapeChars rest

/-- The single-character escapes `json.loads` accepts after a backslash. -/
def simpleUnescape (e : Char) : Option Char :=
  if e = '"' then some '"'
  else if e = '\\' then some '\\'
  else if e = '/' then some '/'
  else if e = 'b' then some (Char.ofNat 8)
  else if e = 'f' then some (Char.ofNat 12)
  else if e = 'n' then some (Char.ofNat 10)
  else if e = 'r' then some (Char.ofNat 13)
  else if e = 't' then some (Char.ofNat 9)
  else none

/-- Four hex digits, their value and the remaining input. -/
def parseHex4 : List Char → Option (Nat × List Char)
  | h1 :: h2 :: h3 :: h4 :: rest =>
    match hexVal h1, hexVal h2, hexVal h3, hexVal h4 with
    | some a, some b, some c, some d =>
      some (a * 4096 + b * 256 + c * 16 + d, rest)
    | _, _, _, _ => none
  | _ => none

/-- What follows a backslash inside a JSON string literal: a simple escape or
`\uXXXX`, combining a high/low surrogate pair into one scalar.  (CPython keeps
a *lone* surrogate as a lone-surrogate `str`; such a value is not
representable as a Lean `Char`, so the embedding rejects it — no output of
`json.dumps` ever contains one.) -/
def unescapeStep (l : List Char) : Option (Option Char × List Char) :=
  match l with
  | [] => none
  | e :: rest =>
    if e = 'u' then
      match parseHex4 rest with
      | none => none
      | some (v, rest2) =>
        if 0xD800 ≤ v ∧ v < 0xDC00 then
          match rest2 with
          | e1 :: e2 :: rest3 =>
            if e1 = '\\' ∧ e2 = 'u' then
              match parseHex4 rest3 with
              | none => none
              | some (w, rest4) =>
                if 0xDC00 ≤ w ∧ w < 0xE000 then
                  some (some (Char.ofNat
                    (0x10000 + (v - 0xD800) * 1024 + (w - 0xDC00))), rest4)
                else none
            else none
          | _ => none
        else if 0xDC00 ≤ v ∧ v < 0xE000 then none
        else some (some (Char.ofNat v), rest2)
    else
      match simpleUnescape e with
      | some c => some (some c, rest)
      | none => none

/-- One step of scanning a JSON string literal (after the opening quote):
`some (none, rest)` when the closing quote is reached, `some (some c, rest)`
for one decoded character, `none` on a lexical error (strict mode rejects raw
control characters, as `json.loads` does). -/
def strBodyStep (l : List Char) : Option (Option Char × List Char) :=
  match l with
  | [] => none
  | c :: rest =>
    if c = '"' then some (none, rest)
    else if c = '\\' then unescapeStep rest
    else if c.toNat < 0x20 then none
    else some (some c, rest)

def parseStrBodyFuel : Nat → List Char → Option (List Char × List Char)
  | 0, _ => none
  | fuel + 1, l =>
    match strBodyStep l with
    | none => none
    | some (none, rest) => some ([], rest)
    | some (some c, rest) =>
      (parseStrBodyFuel fuel rest).map (fun p => (c :: p.1, p.2))

/-- The body of a JSON string literal (everything after the opening quote):
the decoded characters and the input after the closing quote.  Every scan
step consumes at least one character, so `length + 1` fuel never runs out. -/
def parseStrBody (l : List Char) : Option (List Char × List Char) :=
  parseStrBodyFuel (l.length + 1) l

/-! ### String-literal round trip -/

theorem hexVal_hexDigit : ∀ n < 16, hexVal (hexDigit n) = some n := by
  decide

theorem parseHex4_hex4 (n : Nat) (hn : n < 0x10000) (L : List Char) :
    parseHex4 (hex4 n ++ L) = some (n, L) := by
  have h1 := hexVal_hexDigit (n / 4096 % 16) (Nat.mod_lt _ (by norm_num))
  have h2 := hexVal_hexDigit (n / 256 % 16) (Nat.mod_lt _ (by norm_num))
  have h3 := hexVal_hexDigit (n / 16 % 16) (Nat.mod_lt _ (by norm_num))
  have h4 := hexVal_hexDigit (n % 16) (Nat.mod_lt _ (by norm_num))
  show parseHex4 (hexDigit (n / 4096 % 16) :: hexDigit (n / 256 % 16) ::
    hexDigit (n / 16 % 16) :: hexDigit (n % 16) :: L) = some (n, L)
  simp only [parseHex4, h1, h2, h3, h4]
  have hsum : n / 4096 % 16 * 4096 + n / 256 % 16 * 256 + n / 16 % 16 * 16 +
      n % 16 = n := by omega
  rw [hsum]

theorem char_toNat_valid (c : Char) :
    c.toNat < 0xD800 ∨ (0xDFFF < c.toNat ∧ c.toNat < 0x110000) :=
  c.valid

theorem unescapeStep_u (v : Nat) (hv : v < 0x10000)
    (hs : ¬(0xD800 ≤ v ∧ v < 0xE000)) (L : List Char) :
    unescapeStep ('u' :: (hex4 v ++ L)) = some (some (Char.ofNat v), L) := by
  have hp := parseHex4_hex4 v hv L
  have hna : ¬(0xD800 ≤ v ∧ v < 0xDC00) := by omega
  have hnb : ¬(0xDC00 ≤ v ∧ v < 0xE000) := by omega
  simp [unescapeStep, hp, hna, hnb]

theorem unescapeStep_surrogate (v : Nat) (hv : 0x10000 ≤ v)
    (hv2 : v < 0x110000) (L : List Char) :
    unescapeStep ('u' :: (hex4 (0xD800 + (v - 0x10000) / 1024) ++
      ('\\' :: 'u' :: (hex4 (0xDC00 + (v - 0x10000) % 1024) ++ L))))
      = some (some (Char.ofNat v), L) := by
  have h1 := parseHex4_hex4 (0xD800 + (v - 0x10000) / 1024) (by omega)
    ('\\' :: 'u' :: (hex4 (0xDC00 + (v - 0x10000) % 1024) ++ L))
  have h2 := parseHex4_hex4 (0xDC00 + (v - 0x10000) % 1024) (by omega) L
  have hc1a : (0xD800 : Nat) ≤ 0xD800 + (v - 0x10000) / 1024 := by omega
  have hc1b : 0xD800 + (v - 0x10000) / 1024 < 0xDC00 := by omega
  have hc2a : (0xDC00 : Nat) ≤ 0xDC00 + (v - 0x10000) % 1024 := by omega
  have hc2b : 0xDC00 + (v - 0x10000) % 1024 < 0xE000 := by omega
  have hsum : 0x10000 + (0xD800 + (v - 0x10000) / 1024 - 0xD800) * 1024 +
      (0xDC00 + (v - 0x10000) % 1024 - 0xDC00) = v := by omega
  simp [unescapeStep, h1, h2, hc1a, hc1b, hc2a, hc2b, hsum]
  have hv3 : 65536 + (v - 65536) / 1024 * 1024 + (v - 65536) % 1024 = v := by
    omega
  rw [hv3]

theorem strBodyStep_backslash (rest : List Char) :
    strBodyStep ('\\' :: rest) = unescapeStep rest := rfl

theorem strBodyStep_escChar (c : Char) (L : List Char) :
    strBodyStep (escChar c ++ L) = some (some c, L) := by
  by_cases h1 : c = '"'
  · subst h1; rfl
  by_cases h2 : c = '\\'
  · subst h2; rfl
  by_cases h3 : c = Char.ofNat 8
  · subst h3; rfl
  by_cases h4 : c = Char.ofNat 9
  · subst h4; rfl
  by_cases h5 : c = Char.ofNat 10
  · subst h5; rfl
  by_cases h6 : c = Char.ofNat 12
  · subst h6; rfl
  by_cases h7 : c = Char.ofNat 13
  · subst h7; rfl
  by_cases h8 : c.toNat < 0x20
  · have hesc : escChar c = '\\' :: 'u' :: hex4 c.toNat := by
      simp only [escChar, if_neg h1, if_neg h2, if_neg h3, if_neg h4,
        if_neg h5, if_neg h6, if_neg h7, if_pos h8]
    rw [hesc]
    simp only [List.cons_append]
    rw [strBodyStep_backslash]
    rw [unescapeStep_u c.toNat (by omega) (by omega) L, Char.ofNat_toNat]
  by_cases h9 : c.toNat ≤ 0x7E
  · have hesc : escChar c = [c] := by
      simp only [escChar, if_neg h1, if_neg h2, if_neg h3, if_neg h4,
        if_neg h5, if_neg h6, if_neg h7, if_neg h8, if_pos h9]
    rw [hesc]
    simp only [List.cons_append, List.nil_append]
    simp only [strBodyStep]
    rw [if_neg h1, if_neg h2, if_neg (by omega)]
  by_cases h10 : c.toNat < 0x10000
  · have hesc : escChar c = '\\' :: 'u' :: hex4 c.toNat := by
      simp only [escChar, if_neg h1, if_neg h2, if_neg h3, if_neg h4,
        if_neg h5, if_neg h6, if_neg h7, if_neg h8, if_neg h9, if_pos h10]
    rw [hesc]
    simp only [List.cons_append]
    rw [strBodyStep_backslash]
    have hval := char_toNat_valid c
    rw [unescapeStep_u c.toNat h10 (by omega) L, Char.ofNat_toNat]
  · have hesc : escChar c =
        ('\\' :: 'u' :: hex4 (0xD800 + (c.toNat - 0x10000) / 1024)) ++
          ('\\' :: 'u' :: hex4 (0xDC00 + (c.toNat - 0x10000) % 1024)) := by
      simp only [escChar, if_neg h1, if_neg h2, if_neg h3, if_neg h4,
        if_neg h5, if_neg h6, if_neg h7, if_neg h8, if_neg h9, if_neg h10]
    rw [hesc]
    have hval := char_toNat_valid c
    simp only [List.cons_append, List.append_assoc]
    rw [strBodyStep_backslash]
    rw [unescapeStep_surrogate c.toNat (by omega) (by omega) L,
      Char.ofNat_toNat]

theorem parseStrBodyFuel_escape : ∀ (cs : List Char) (F : Nat)
    (rest : List Char), cs.length + 1 ≤ F →
    parseStrBodyFuel F (escapeChars cs ++ '"' :: rest) = some (cs, rest) := by
  intro cs
  induction cs with
  | nil =>
    intro F rest hF
    cases F with
    | zero => omega
    | succ F2 =>
      show parseStrBodyFuel (F2 + 1) ('"' :: rest) = some ([], rest)
      rfl
  | cons c cs2 ih =>
    intro F rest hF
    cases F with
    | zero => simp at hF
    | succ F2 =>
      have hstep := strBodyStep_escChar c (escapeChars cs2 ++ '"' :: rest)
      show parseStrBodyFuel (F2 + 1)
        ((escChar c ++ escapeChars cs2) ++ '"' :: rest) = some (c :: cs2, rest)
      rw [List.append_assoc]
      rw [parseStrBodyFuel, hstep]
      show Option.map (fun p => (c :: p.1, p.2))
        (parseStrBodyFuel F2 (escapeChars cs2 ++ '"' :: rest))
        = some (c :: cs2, rest)
      rw [ih F2 rest (by simp at hF; omega)]
      rfl

theorem escChar_length_pos (c : Char) : 1 ≤ (escChar c).length := by
  unfold escChar
  repeat' split
  all_goals simp [hex4]

theorem escapeChars_length (cs : List Char) :
    cs.length ≤ (escapeChars cs).length := by
  induction cs with
  | nil => simp [escapeChars]
  | cons c rest ih =>
    have := escChar_length_pos c
    simp only [escapeChars, List.length_append, List.length_cons]
    omega

theorem parseStrBody_escape (cs : List Char) (rest : List Char) :
    parseStrBody (escapeChars cs ++ '"' :: rest) = some (cs, rest) := by
  apply parseStrBodyFuel_escape
  have := escapeChars_length cs
  simp only [List.length_append, List.length_cons]
  omega

/-! ## JSON printing (`json.dumps`, default separators `', '` / `': '`,
`ensure_ascii=True`) and parsing (`json.loads`) -/

mutual

/-- `json.dumps` with its defaults, as `save` calls it: `", "` between
members/elements, `": "` after keys, all non-ASCII escaped.  Numbers are
Python `int`s (no float ever occurs in data the handler writes). -/
def jsonDumps : Json → List Char
  | .null => "null".data
  | .bool true => "true".data
  | .bool false => "false".data
  | .num n => (toString n).data
  | .str s => '"' :: (escapeChars s.data ++ ['"'])
  | .arr es => '[' :: (dumpElems es ++ [']'])
  | .obj ms => '{' :: (dumpMembers ms ++ ['}'])

def dumpMembers : List (String × Json) → List Char
  | [] => []
  | [(k, v)] =>
    '"' :: (escapeChars k.data ++ ('"' :: ':' :: ' ' :: jsonDumps v))
  | (k, v) :: rest =>
    '"' :: (escapeChars k.data ++ ('"' :: ':' :: ' ' ::
      (jsonDumps v ++ (',' :: ' ' :: dumpMembers rest))))

def dumpElems : List Json → List Char
  | [] => []
  | [e] => jsonDumps e
  | e :: rest => jsonDumps e ++ (',' :: ' ' :: dumpElems rest)

end

/-- A parsed JSON object becomes a Python dict: members are inserted in
order, later duplicates overwriting earlier ones in place. -/
def jsonObjToDict (ms : List (String × Json)) : List (String × Json) :=
  ms.foldl (fun acc p => dictSet acc p.1 p.2) []

def isJsonWs (c : Char) : Bool :=
  c = ' ' ∨ c = Char.ofNat 9 ∨ c = Char.ofNat 10 ∨ c = Char.ofNat 13

def skipWs (l : List Char) : List Char := l.dropWhile isJsonWs

def digitsVal (acc : Nat) : List Char → Nat × List Char
  | [] => (acc, [])
  | c :: rest =>
    if c.isDigit then digitsVal (acc * 10 + (c.toNat - 48)) rest
    else (acc, c :: rest)

/-- A run of one or more decimal digits and its value.  (JSON floats and
exponents are not handled: no number beyond Python `int`s occurs in any
document the handler reads or writes.) -/
def parseDigits (l : List Char) : Option (Nat × List Char) :=
  match l with
  | c :: rest =>
    if c.isDigit then some (digitsVal (c.toNat - 48) rest) else none
  | [] => none

def parseLitTrue (rest : List Char) : Option (Json × List Char) :=
  match rest with
  | 'r' :: 'u' :: 'e' :: r2 => some (Json.bool true, r2)
  | _ => none

def parseLitFalse (rest : List Char) : Option (Json × List Char) :=
  match rest with
  | 'a' :: 'l' :: 's' :: 'e' :: r2 => some (Json.bool false, r2)
  | _ => none

def parseLitNull (rest : List Char) : Option (Json × List Char) :=
  match rest with
  | 'u' :: 'l' :: 'l' :: r2 => some (Json.null, r2)
  | _ => none

mutual

/-- The recursive-descent value parser of `json.loads`, fuel-indexed (one
unit per grammar node; the top-level call supplies more fuel than any parse
can consume, so the fuel never runs out on documents `json.loads` accepts). -/
def parseValue : Nat → List Char → Option (Json × List Char)
  | 0, _ => none
  | fuel + 1, input =>
    match skipWs input with
    | [] => none
    | c :: rest =>
      if c = '"' then
        (parseStrBody rest).map (fun p => (Json.str (String.mk p.1), p.2))
      else if c = '{' then
        match skipWs rest with
        | '}' :: r2 => some (Json.obj [], r2)
        | r2 => (parseMembers fuel r2).map
            (fun p => (Json.obj (jsonObjToDict p.1), p.2))
      else if c = '[' then
        match skipWs rest with
        | ']' :: r2 => some (Json.arr [], r2)
        | r2 => (parseElems fuel r2).map (fun p => (Json.arr p.1, p.2))
      else if c = 't' then parseLitTrue rest
      else if c = 'f' then parseLitFalse rest
      else if c = 'n' then parseLitNull rest
      else if c = '-' then
        (parseDigits rest).map (fun p => (Json.num (-(p.1 : Int)), p.2))
      else if c.isDigit then
        (parseDigits (c :: rest)).map (fun p => (Json.num (p.1 : Int), p.2))
      else none

/-- One or more `"key": value` members followed by `}`. -/
def parseMembers : Nat → List Char → Option (List (String × Json) × List Char)
  | 0, _ => none
  | fuel + 1, input =>
    match skipWs input with
    | '"' :: rest =>
      match parseStrBody rest with
      | some (key, r1) =>
        match skipWs r1 with
        | ':' :: r2 =>
          match parseValue fuel r2 with
          | some (v, r3) =>
            match skipWs r3 with
            | ',' :: r4 =>
              (parseMembers fuel r4).map
                (fun p => ((String.mk key, v) :: p.1, p.2))
            | '}' :: r4 => some ([(String.mk key, v)], r4)
            | _ => none
          | none => none
        | _ => none
      | none => none
    | _ => none

/-- One or more array elements followed by `]`. -/
def parseElems : Nat → List Char → Option (List Json × List Char)
  | 0, _ => none
  | fuel + 1, input =>
    match parseValue fuel input with
    | some (v, r1) =>
      match skipWs r1 with
      | ',' :: r2 => (parseElems fuel r2).map (fun p => (v :: p.1, p.2))
      | ']' :: r2 => some ([v], r2)
      | _ => none
    | none => none

end

/-- `json.loads`: parse one value, allow trailing whitespace only. -/
def jsonLoads (cs : List Char) : Option Json :=
  match parseValue (cs.length + 1) cs with
  | some (v, rest) => if skipWs rest = [] then some v else none
  | none => none

/-! ## The container codec: `save` (archive_handler.py lines 87–110) and
`load` (lines 51–76) -/

/-- `ArchiveCommon.MAGIC_HEADER = b"CRUDEARCHv2"` (common.py line 12). -/
def magicBytes : Bytes := "CRUDEARCHv2".data.map Char.toNat

/-- The `{'type': ..., 'content': base64}` object `save` builds per file. -/
def entryJson (e : FileEntry) : Json :=
  .obj [("type", .str e.ftype), ("content", .str (encodeContent e.content))]

/-- The per-model object `save` builds: base64 LOD blobs under stringified
integer keys (`json.dumps` turns int dict keys into their `str`), animations
and materials verbatim. -/
def metaJson (m : ModelMeta) : Json :=
  .obj [("lod", .obj (m.lod.map
      (fun p => (toString p.1, Json.str (encodeContent p.2))))),
    ("animations", m.animations),
    ("materials", m.materials)]

/-- The whole document `save` serializes:
`{'files': {...}, '3d_metadata': {...}}`. -/
def archiveJson (a : Archive) : Json :=
  .obj [("files", .obj (a.files.map (fun p => (p.1, entryJson p.2)))),
    ("3d_metadata", .obj (a.meta3d.map (fun p => (p.1, metaJson p.2))))]

/-- `CrudeArchiveHandler.save` (lines 87–110): the magic header followed by
`json.dumps(data).encode('utf-8')`.  (The file write itself is modelled as
producing the byte string.) -/
def saveBytes (a : Archive) : Bytes :=
  magicBytes ++ utf8Encode (String.mk (jsonDumps (archiveJson a)))

/-- Python `int(k)` as `load` applies it to LOD keys.  (CPython also accepts
surrounding whitespace and a leading `+`; the keys written by `save` are bare
`str(int)` outputs, which this covers.) -/
def parsePyInt (s : String) : Option Int :=
  match s.data with
  | '-' :: rest =>
    match parseDigits rest with
    | some (n, []) => some (-(n : Int))
    | _ => none
  | l =>
    match parseDigits l with
    | some (n, []) => some ((n : Int))
    | _ => none

/-- One file entry from the parsed document:
`{'type': file_info['type'], 'content': decode_content(file_info['content'])}`.
`load` stores the `type` value unchecked; the typed model requires the string
it always is in documents `save` writes.  A failing base64 decode (or a
non-string `content`) propagates out of `load`, here `none`. -/
def extractEntry (j : Json) : Option FileEntry :=
  match j with
  | .obj ms =>
    match dictGet ms "type", dictGet ms "content" with
    | some (.str t), some (.str c) =>
      (decodeContent c).map (fun bs => { ftype := t, content := bs })
    | _, _ => none
  | _ => none

def extractFiles : List (String × Json) → Option (List (String × FileEntry))
  | [] => some []
  | (name, j) :: rest =>
    match extractEntry j, extractFiles rest with
    | some e, some es => some ((name, e) :: es)
    | _, _ => none

/-- `{int(k): decode_content(v) for k, v in meta['lod'].items()}`. -/
def extractLod : List (String × Json) → Option (List (Int × Bytes))
  | [] => some []
  | (k, j) :: rest =>
    match parsePyInt k, j, extractLod rest with
    | some n, .str c, some tail =>
      (decodeContent c).map (fun bs => (n, bs) :: tail)
    | _, _, _ => none

/-- One `_3d_metadata` record: `meta['lod']`, `meta['animations']`,
`meta['materials']` are all required lookups (a missing one is a `KeyError`
out of `load`). -/
def extractMeta (j : Json) : Option ModelMeta :=
  match j with
  | .obj ms =>
    match dictGet ms "lod", dictGet ms "animations", dictGet ms "materials" with
    | some (.obj lodMs), some anims, some mats =>
      (extractLod lodMs).map
        (fun lods => { lod := lods, animations := anims, materials := mats })
    | _, _, _ => none
  | _ => none

def extractMetas : List (String × Json) → Option (List (String × ModelMeta))
  | [] => some []
  | (name, j) :: rest =>
    match extractMeta j, extractMetas rest with
    | some m, some ms2 => some ((name, m) :: ms2)
    | _, _ => none

/-- The dict-rebuilding part of `load`: `data['files']` (a `KeyError` when
absent), then the two comprehensions, then
`data.get('3d_metadata', {})`. -/
def loadJson (j : Json) : Except ArchiveError Archive :=
  match j with
  | .obj top =>
    match dictGet top "files" with
    | some (.obj fs) =>
      match extractFiles fs with
      | some files =>
        match (dictGet top "3d_metadata").getD (.obj []) with
        | .obj ms =>
          match extractMetas ms with
          | some metas => .ok { files := files, meta3d := metas }
          | none => .error .typeError
        | _ => .error .typeError
      | none => .error .typeError
    | some _ => .error .typeError
    | none => .error (.keyError "files")
  | _ => .error .typeError

/-- `CrudeArchiveHandler.load` (lines 51–76): read `len(MAGIC_HEADER)` bytes
and compare (`ValueError("Invalid archive format")` on mismatch — also when
the file is shorter than the header), decode the rest as UTF-8, `json.loads`
it, rebuild `self.files` and `self._3d_metadata`. -/
def loadBytes (bs : Bytes) : Except ArchiveError Archive :=
  if bs.take magicBytes.length = magicBytes then
    match utf8Decode (bs.drop magicBytes.length) with
    | some s =>
      match jsonLoads s.data with
      | some j => loadJson j
      | none => .error .jsonDecodeError
    | none => .error .unicodeDecodeError
  else .error .invalidFormat

/-! ### Parsing back what `jsonDumps` printed -/

theorem skipWs_cons_of_neg {c : Char} (h : isJsonWs c = false)
    (l : List Char) : skipWs (c :: l) = c :: l := by
  simp [skipWs, List.dropWhile, h]

theorem parseValue_quote (F : Nat) (l : List Char) :
    parseValue (F + 1) ('"' :: l)
      = (parseStrBody l).map (fun p => (Json.str (String.mk p.1), p.2)) := rfl

theorem parseValue_ws (F : Nat) (l : List Char) :
    parseValue (F + 1) (' ' :: l) = parseValue (F + 1) l := rfl

theorem parseValue_objMembers (F : Nat) (l : List Char) :
    parseValue (F + 1) ('{' :: ('"' :: l))
      = (parseMembers F ('"' :: l)).map
          (fun p => (Json.obj (jsonObjToDict p.1), p.2)) := rfl

theorem parseValue_emptyObj (F : Nat) (l : List Char) :
    parseValue (F + 1) ('{' :: ('}' :: l)) = some (Json.obj [], l) := rfl

theorem parseMembers_ws (F : Nat) (l : List Char) :
    parseMembers (F + 1) (' ' :: l) = parseMembers (F + 1) l := rfl

/-- A last `"key": value` member followed by `}`. -/
theorem parseMembers_last {F : Nat} {X r1 r2 r3 r4 : List Char}
    {key : List Char} {v : Json}
    (hkey : parseStrBody X = some (key, r1))
    (hcolon : skipWs r1 = ':' :: r2)
    (hval : parseValue F r2 = some (v, r3))
    (hend : skipWs r3 = '}' :: r4) :
    parseMembers (F + 1) ('"' :: X) = some ([(String.mk key, v)], r4) := by
  rw [parseMembers]
  rw [skipWs_cons_of_neg (by decide)]
  simp only [hkey, hcolon, hval, hend]

/-- A `"key": value` member followed by `,` and further members. -/
theorem parseMembers_cons {F : Nat} {X r1 r2 r3 r4 r5 : List Char}
    {key : List Char} {v : Json} {tail : List (String × Json)}
    (hkey : parseStrBody X = some (key, r1))
    (hcolon : skipWs r1 = ':' :: r2)
    (hval : parseValue F r2 = some (v, r3))
    (hcomma : skipWs r3 = ',' :: r4)
    (hrest : parseMembers F r4 = some (tail, r5)) :
    parseMembers (F + 1) ('"' :: X)
      = some ((String.mk key, v) :: tail, r5) := by
  rw [parseMembers]
  rw [skipWs_cons_of_neg (by decide)]
  simp only [hkey, hcolon, hval, hcomma, hrest]
  rfl

/-- `json.dumps` of a string parses back to it. -/
theorem parseValue_str (F : Nat) (s : String) (rest : List Char) :
    parseValue (F + 1) (jsonDumps (.str s) ++ rest) = some (.str s, rest) := by
  simp only [jsonDumps, List.cons_append, List.append_assoc,
    List.singleton_append]
  rw [parseValue_quote, parseStrBody_escape]
  simp [stringMkData]

theorem dictSet_append_fresh {α : Type} (k : String) (v : α) :
    ∀ (acc : List (String × α)), (∀ p ∈ acc, p.1 ≠ k) →
    dictSet acc k v = acc ++ [(k, v)] := by
  intro acc
  induction acc with
  | nil => intro _; rfl
  | cons p rest ih =>
    intro h
    have hp : p.1 ≠ k := h p (by simp)
    cases p with
    | mk k2 v2 =>
      simp only at hp
      simp [dictSet, hp, ih (fun q hq => h q (by simp [hq]))]

theorem jsonObjToDict_self_aux (ms : List (String × Json)) :
    ∀ (acc : List (String × Json)),
    (ms.map Prod.fst).Nodup →
    (∀ p ∈ acc, ∀ q ∈ ms, p.1 ≠ q.1) →
    ms.foldl (fun acc2 p => dictSet acc2 p.1 p.2) acc = acc ++ ms := by
  induction ms with
  | nil => intro acc _ _; simp
  | cons m rest ih =>
    intro acc hnd hdisj
    have hfresh : ∀ p ∈ acc, p.1 ≠ m.1 :=
      fun p hp => hdisj p hp m (by simp)
    simp only [List.foldl_cons]
    rw [dictSet_append_fresh m.1 m.2 acc hfresh]
    have hnd2 : (rest.map Prod.fst).Nodup := by
      simp only [List.map_cons, List.nodup_cons] at hnd
      exact hnd.2
    have hm : m.1 ∉ rest.map Prod.fst := by
      simp only [List.map_cons, List.nodup_cons] at hnd
      exact hnd.1
    have hdisj2 : ∀ p ∈ acc ++ [(m.1, m.2)], ∀ q ∈ rest, p.1 ≠ q.1 := by
      intro p hp q hq
      rcases List.mem_append.mp hp with hp2 | hp2
      · exact hdisj p hp2 q (by simp [hq])
      · have hpm : p = (m.1, m.2) := by simpa using hp2
        subst hpm
        intro hcontra
        exact hm (by
          simp only [List.mem_map]
          exact ⟨q, hq, hcontra.symm⟩)
    rw [ih (acc ++ [(m.1, m.2)]) hnd2 hdisj2]
    simp

/-- A parsed object with pairwise-distinct keys rebuilds to exactly its
member list. -/
theorem jsonObjToDict_self (ms : List (String × Json))
    (h : (ms.map Prod.fst).Nodup) : jsonObjToDict ms = ms := by
  have := jsonObjToDict_self_aux ms [] h (by intro p hp; simp at hp)
  simpa [jsonObjToDict] using this

theorem parseValue_entryJson (e : FileEntry) (F : Nat) (rest : List Char) :
    parseValue (F + 4) (jsonDumps (entryJson e) ++ rest)
      = some (entryJson e, rest) := by
  simp only [entryJson, jsonDumps, dumpMembers, List.cons_append,
    List.append_assoc, List.singleton_append, List.nil_append]
  rw [parseValue_objMembers]
  have hkey1 := parseStrBody_escape ['t', 'y', 'p', 'e']
    (':' :: ' ' :: '"' :: (escapeChars e.ftype.data ++
      '"' :: ',' :: ' ' :: '"' ::
        (escapeChars ['c', 'o', 'n', 't', 'e', 'n', 't'] ++
          '"' :: ':' :: ' ' :: '"' ::
            (escapeChars (encodeContent e.content).data ++
              '"' :: '}' :: rest))))
  have hcolon1 : skipWs (':' :: ' ' :: '"' :: (escapeChars e.ftype.data ++
      '"' :: ',' :: ' ' :: '"' ::
        (escapeChars ['c', 'o', 'n', 't', 'e', 'n', 't'] ++
          '"' :: ':' :: ' ' :: '"' ::
            (escapeChars (encodeContent e.content).data ++
              '"' :: '}' :: rest))))
      = ':' :: ' ' :: '"' :: (escapeChars e.ftype.data ++
      '"' :: ',' :: ' ' :: '"' ::
        (escapeChars ['c', 'o', 'n', 't', 'e', 'n', 't'] ++
          '"' :: ':' :: ' ' :: '"' ::
            (escapeChars (encodeContent e.content).data ++
              '"' :: '}' :: rest))) :=
    skipWs_cons_of_neg (by decide) _
  have hval1 : parseValue (F + 2) (' ' :: '"' :: (escapeChars e.ftype.data ++
      '"' :: ',' :: ' ' :: '"' ::
        (escapeChars ['c', 'o', 'n', 't', 'e', 'n', 't'] ++
          '"' :: ':' :: ' ' :: '"' ::
            (escapeChars (encodeContent e.content).data ++
              '"' :: '}' :: rest))))
      = some (.str e.ftype, ',' :: ' ' :: '"' ::
        (escapeChars ['c', 'o', 'n', 't', 'e', 'n', 't'] ++
          '"' :: ':' :: ' ' :: '"' ::
            (escapeChars (encodeContent e.content).data ++
              '"' :: '}' :: rest))) := by
    rw [parseValue_ws, parseValue_quote, parseStrBody_escape]
    simp [stringMkData]
  have hcomma1 : skipWs (',' :: ' ' :: '"' ::
        (escapeChars ['c', 'o', 'n', 't', 'e', 'n', 't'] ++
          '"' :: ':' :: ' ' :: '"' ::
            (escapeChars (encodeContent e.content).data ++
              '"' :: '}' :: rest)))
      = ',' :: ' ' :: '"' ::
        (escapeChars ['c', 'o', 'n', 't', 'e', 'n', 't'] ++
          '"' :: ':' :: ' ' :: '"' ::
            (escapeChars (encodeContent e.content).data ++
              '"' :: '}' :: rest)) :=
    skipWs_cons_of_neg (by decide) _
  have hval2 : parseValue (F + 1) (' ' :: '"' ::
      (escapeChars (encodeContent e.content).data ++ '"' :: '}' :: rest))
      = some (.str (encodeContent e.content), '}' :: rest) := by
    rw [parseValue_ws, parseValue_quote, parseStrBody_escape]
    simp [stringMkData]
  have hrest1 : parseMembers (F + 2) (' ' :: '"' ::
      (escapeChars ['c', 'o', 'n', 't', 'e', 'n', 't'] ++
        '"' :: ':' :: ' ' :: '"' ::
          (escapeChars (encodeContent e.content).data ++
            '"' :: '}' :: rest)))
      = some ([("content", Json.str (encodeContent e.content))], rest) := by
    rw [parseMembers_ws]
    rw [parseMembers_last (parseStrBody_escape ['c', 'o', 'n', 't', 'e', 'n', 't'] _)
      (skipWs_cons_of_neg (by decide) _) hval2
      (skipWs_cons_of_neg (by decide) _)]
  rw [parseMembers_cons hkey1 hcolon1 hval1 hcomma1 hrest1]
  rfl

/-- Parsing the dumped member list of a nonempty files dict. -/
theorem parseMembers_filesList : ∀ (l : List (String × FileEntry))
    (p : String × FileEntry) (F : Nat) (rest : List Char),
    parseMembers (6 * l.length + F + 5)
      (dumpMembers ((p :: l).map (fun q => (q.1, entryJson q.2)))
        ++ '}' :: rest)
      = some ((p :: l).map (fun q => (q.1, entryJson q.2)), rest) := by
  intro l
  induction l with
  | nil =>
    intro p F rest
    simp only [List.map_cons, List.map_nil, dumpMembers, List.length_nil,
      List.cons_append, List.append_assoc, List.singleton_append,
      List.nil_append, Nat.mul_zero, Nat.zero_add]
    have hval : parseValue (F + 4)
        (' ' :: (jsonDumps (entryJson p.2) ++ '}' :: rest))
        = some (entryJson p.2, '}' :: rest) := by
      rw [parseValue_ws]
      exact parseValue_entryJson p.2 F ('}' :: rest)
    rw [parseMembers_last (parseStrBody_escape p.1.data _)
      (skipWs_cons_of_neg (by decide) _) hval
      (skipWs_cons_of_neg (by decide) _)]
  | cons q l2 ih =>
    intro p F rest
    simp only [List.map_cons, dumpMembers, List.length_cons,
      List.cons_append, List.append_assoc, List.singleton_append,
      List.nil_append]
    have hfuel : 6 * (l2.length + 1) + F + 5
        = (6 * l2.length + F + 10) + 1 := by ring
    rw [hfuel]
    have hval : parseValue (6 * l2.length + F + 10)
        (' ' :: (jsonDumps (entryJson p.2) ++ ',' :: ' ' ::
          (dumpMembers ((q.1, entryJson q.2) :: l2.map
            (fun q => (q.1, entryJson q.2))) ++ '}' :: rest)))
        = some (entryJson p.2, ',' :: ' ' ::
          (dumpMembers ((q.1, entryJson q.2) :: l2.map
            (fun q => (q.1, entryJson q.2))) ++ '}' :: rest)) := by
      have h10 : 6 * l2.length + F + 10 = (6 * l2.length + F + 6) + 4 := by
        ring
      rw [h10]
      have h9 : (6 * l2.length + F + 6) + 4 = ((6 * l2.length + F + 6) + 3) + 1 := by
        ring
      rw [h9, parseValue_ws, ← h9]
      exact parseValue_entryJson p.2 (6 * l2.length + F + 6) _
    have hrest : parseMembers (6 * l2.length + F + 10)
        (' ' :: (dumpMembers ((q.1, entryJson q.2) :: l2.map
          (fun q => (q.1, entryJson q.2))) ++ '}' :: rest))
        = some ((q.1, entryJson q.2) :: l2.map
          (fun q => (q.1, entryJson q.2)), rest) := by
      have h10 : 6 * l2.length + F + 10 = (6 * l2.length + F + 9) + 1 := by
        ring
      rw [h10, parseMembers_ws, ← h10]
      have ihq := ih q (F + 5) rest
      simp only [List.map_cons] at ihq
      have hf2 : 6 * l2.length + (F + 5) + 5 = 6 * l2.length + F + 10 := by
        ring
      rw [hf2] at ihq
      exact ihq
    rw [parseMembers_cons (parseStrBody_escape p.1.data _)
      (skipWs_cons_of_neg (by decide) _) hval
      (skipWs_cons_of_neg (by decide) _) hrest]

/-- The separator-plus-tail of a dumped member list. -/
def dumpMembersTail (ms : List (String × Json)) : List Char :=
  match ms with
  | [] => []
  | _ :: _ => ',' :: ' ' :: dumpMembers ms

theorem dumpMembers_cons_eq (m : String × Json) (ms : List (String × Json)) :
    dumpMembers (m :: ms)
      = '"' :: (escapeChars m.1.data ++ ('"' :: ':' :: ' ' ::
        (jsonDumps m.2 ++ dumpMembersTail ms))) := by
  cases ms with
  | nil =>
    cases m with
    | mk k v => simp [dumpMembers, dumpMembersTail]
  | cons m2 ms2 =>
    cases m with
    | mk k v => simp [dumpMembers, dumpMembersTail]

/-- Parsing the dumped files object (nonempty case). -/
theorem parseValue_filesObj (p : String × FileEntry)
    (l : List (String × FileEntry)) (F : Nat) (rest : List Char) :
    parseValue (6 * l.length + F + 6)
      ('{' :: (dumpMembers ((p.1, entryJson p.2) ::
        l.map (fun q => (q.1, entryJson q.2))) ++ '}' :: rest))
      = some (Json.obj (jsonObjToDict ((p.1, entryJson p.2) ::
        l.map (fun q => (q.1, entryJson q.2)))), rest) := by
  have hfl := parseMembers_filesList l p F rest
  simp only [List.map_cons, dumpMembers_cons_eq, List.cons_append,
    List.append_assoc] at hfl ⊢
  rw [show 6 * l.length + F + 6 = (6 * l.length + F + 5) + 1 from by ring]
  rw [parseValue_objMembers, hfl]
  rfl

/-- Parsing the whole dumped archive document (metadata empty). -/
theorem parseValue_archive (a : Archive) (hmeta : a.meta3d = [])
    (hnodup : (a.files.map Prod.fst).Nodup) (F : Nat) (rest : List Char) :
    parseValue (6 * a.files.length + F + 9)
      (jsonDumps (archiveJson a) ++ rest) = some (archiveJson a, rest) := by
  obtain ⟨files, meta⟩ := a
  simp only at hmeta
  subst hmeta
  simp only at hnodup
  cases files with
  | nil =>
    simp only [archiveJson, List.map_nil, List.length_nil, jsonDumps,
      dumpMembers, List.cons_append, List.append_assoc,
      List.singleton_append, List.nil_append, Nat.mul_zero, Nat.zero_add]
    rw [parseValue_objMembers]
    have hval : parseValue (F + 7) (' ' :: '{' :: '}' :: (',' :: ' ' :: '"' ::
        (escapeChars ['3', 'd', '_', 'm', 'e', 't', 'a', 'd', 'a', 't', 'a'] ++
          '"' :: ':' :: ' ' :: '{' :: '}' :: '}' :: rest)))
        = some (Json.obj [], ',' :: ' ' :: '"' ::
          (escapeChars ['3', 'd', '_', 'm', 'e', 't', 'a', 'd', 'a', 't', 'a'] ++
            '"' :: ':' :: ' ' :: '{' :: '}' :: '}' :: rest)) := by
      rw [parseValue_ws, parseValue_emptyObj]
    have hrest : parseMembers (F + 7) (' ' :: '"' ::
        (escapeChars ['3', 'd', '_', 'm', 'e', 't', 'a', 'd', 'a', 't', 'a'] ++
          '"' :: ':' :: ' ' :: '{' :: '}' :: '}' :: rest))
        = some ([("3d_metadata", Json.obj [])], rest) := by
      rw [parseMembers_ws]
      have hv2 : parseValue (F + 6) (' ' :: '{' :: '}' :: ('}' :: rest))
          = some (Json.obj [], '}' :: rest) := by
        rw [parseValue_ws, parseValue_emptyObj]
      rw [parseMembers_last
        (parseStrBody_escape ['3', 'd', '_', 'm', 'e', 't', 'a', 'd', 'a', 't', 'a'] _)
        (skipWs_cons_of_neg (by decide) _) hv2
        (skipWs_cons_of_neg (by decide) _)]
    rw [parseMembers_cons (parseStrBody_escape ['f', 'i', 'l', 'e', 's'] _)
      (skipWs_cons_of_neg (by decide) _) hval
      (skipWs_cons_of_neg (by decide) _) hrest]
    rfl
  | cons p l =>
    simp only [archiveJson, List.map_cons, List.map_nil, List.length_cons,
      jsonDumps, dumpMembers, List.cons_append, List.append_assoc,
      List.singleton_append, List.nil_append]
    have hkeys : (((p.1, entryJson p.2) ::
        l.map (fun q => (q.1, entryJson q.2))).map Prod.fst)
        = (p :: l).map Prod.fst := by
      simp [List.map_map, Function.comp]
    have hdict : jsonObjToDict ((p.1, entryJson p.2) ::
        l.map (fun q => (q.1, entryJson q.2)))
        = (p.1, entryJson p.2) :: l.map (fun q => (q.1, entryJson q.2)) := by
      apply jsonObjToDict_self
      rw [hkeys]
      exact hnodup
    rw [show 6 * (l.length + 1) + F + 9
      = 6 * l.length + F + 13 + 1 + 1 from by ring]
    rw [parseValue_objMembers]
    have hval : parseValue (6 * l.length + F + 13)
        (' ' :: ('{' :: (dumpMembers ((p.1, entryJson p.2) ::
          l.map (fun q => (q.1, entryJson q.2))) ++
            '}' :: ',' :: ' ' :: '"' ::
              (escapeChars ['3', 'd', '_', 'm', 'e', 't', 'a', 'd', 'a', 't', 'a'] ++
                '"' :: ':' :: ' ' :: '{' :: '}' :: '}' :: rest))))
        = some (Json.obj ((p.1, entryJson p.2) ::
            l.map (fun q => (q.1, entryJson q.2))),
          ',' :: ' ' :: '"' ::
            (escapeChars ['3', 'd', '_', 'm', 'e', 't', 'a', 'd', 'a', 't', 'a'] ++
              '"' :: ':' :: ' ' :: '{' :: '}' :: '}' :: rest)) := by
      rw [show 6 * l.length + F + 13 = 6 * l.length + F + 12 + 1 from by ring]
      rw [parseValue_ws]
      rw [show 6 * l.length + F + 12 + 1
        = 6 * l.length + (F + 7) + 6 from by ring]
      rw [parseValue_filesObj p l (F + 7) _, hdict]
    have hrest : parseMembers (6 * l.length + F + 13) (' ' :: '"' ::
        (escapeChars ['3', 'd', '_', 'm', 'e', 't', 'a', 'd', 'a', 't', 'a'] ++
          '"' :: ':' :: ' ' :: '{' :: '}' :: '}' :: rest))
        = some ([("3d_metadata", Json.obj [])], rest) := by
      rw [parseMembers_ws]
      have hv2 : parseValue (6 * l.length + F + 12)
          (' ' :: '{' :: '}' :: ('}' :: rest))
          = some (Json.obj [], '}' :: rest) := by
        rw [parseValue_ws, parseValue_emptyObj]
      rw [parseMembers_last
        (parseStrBody_escape ['3', 'd', '_', 'm', 'e', 't', 'a', 'd', 'a', 't', 'a'] _)
        (skipWs_cons_of_neg (by decide) _) hv2
        (skipWs_cons_of_neg (by decide) _)]
    rw [parseMembers_cons (parseStrBody_escape ['f', 'i', 'l', 'e', 's'] _)
      (skipWs_cons_of_neg (by decide) _) hval
      (skipWs_cons_of_neg (by decide) _) hrest]
    rfl

/-! ### Length and ASCII bounds on the dumped document -/

theorem entryJson_dump_length (e : FileEntry) :
    2 ≤ (jsonDumps (entryJson e)).length := by
  simp only [entryJson, jsonDumps, List.length_cons, List.length_append]
  omega

/-- Each dumped file member costs at least six characters. -/
theorem dumpMembers_files_length : ∀ (l : List (String × FileEntry)),
    6 * l.length
      ≤ (dumpMembers (l.map (fun q => (q.1, entryJson q.2)))).length
  | [] => by simp [dumpMembers]
  | [(k, e)] => by
    have := entryJson_dump_length e
    simp only [List.map_cons, List.map_nil, dumpMembers, List.length_cons,
      List.length_append, List.length_nil]
    omega
  | (k, e) :: (k2, e2) :: rest => by
    have ih := dumpMembers_files_length ((k2, e2) :: rest)
    have := entryJson_dump_length e
    simp only [List.map_cons, dumpMembers, List.length_cons,
      List.length_append, List.length_nil] at ih ⊢
    omega

theorem archiveJson_dump_length (a : Archive) :
    6 * a.files.length + 8 ≤ (jsonDumps (archiveJson a)).length := by
  obtain ⟨files, meta⟩ := a
  have hf := dumpMembers_files_length files
  simp only [archiveJson, jsonDumps, dumpMembers, List.length_cons,
    List.length_append, List.length_nil]
  simp only at hf
  omega

theorem hexDigit_ascii (n : Nat) : (hexDigit n).toNat < 128 := by
  by_cases h : n < 16
  · have h16 : ∀ m < 16, (hexDigit m).toNat < 128 := by decide
    exact h16 n h
  · rw [hexDigit, List.getD_eq_default]
    · decide
    · have hlen : ("0123456789abcdef".data).length = 16 := rfl
      omega

theorem hex4_ascii (n : Nat) : ∀ d ∈ hex4 n, d.toNat < 128 := by
  intro d hd
  simp only [hex4, List.mem_cons, List.not_mem_nil, or_false] at hd
  rcases hd with rfl | rfl | rfl | rfl <;> exact hexDigit_ascii _

/-- `ensure_ascii=True`: every character an escape sequence emits is ASCII. -/
theorem escChar_ascii (c : Char) : ∀ d ∈ escChar c, d.toNat < 128 := by
  by_cases h1 : c = '"'
  · subst h1; decide
  by_cases h2 : c = '\\'
  · subst h2; decide
  by_cases h3 : c = Char.ofNat 8
  · subst h3; decide
  by_cases h4 : c = Char.ofNat 9
  · subst h4; decide
  by_cases h5 : c = Char.ofNat 10
  · subst h5; decide
  by_cases h6 : c = Char.ofNat 12
  · subst h6; decide
  by_cases h7 : c = Char.ofNat 13
  · subst h7; decide
  by_cases h8 : c.toNat < 0x20
  · rw [escChar, if_neg h1, if_neg h2, if_neg h3, if_neg h4, if_neg h5,
      if_neg h6, if_neg h7, if_pos h8]
    intro d hd
    simp only [List.mem_cons] at hd
    rcases hd with rfl | rfl | hm
    · decide
    · decide
    · exact hex4_ascii _ d hm
  by_cases h9 : c.toNat ≤ 0x7E
  · rw [escChar, if_neg h1, if_neg h2, if_neg h3, if_neg h4, if_neg h5,
      if_neg h6, if_neg h7, if_neg h8, if_pos h9]
    intro d hd
    simp only [List.mem_cons, List.not_mem_nil, or_false] at hd
    subst hd
    omega
  by_cases h10 : c.toNat < 0x10000
  · rw [escChar, if_neg h1, if_neg h2, if_neg h3, if_neg h4, if_neg h5,
      if_neg h6, if_neg h7, if_neg h8, if_neg h9, if_pos h10]
    intro d hd
    simp only [List.mem_cons] at hd
    rcases hd with rfl | rfl | hm
    · decide
    · decide
    · exact hex4_ascii _ d hm
  · rw [escChar, if_neg h1, if_neg h2, if_neg h3, if_neg h4, if_neg h5,
      if_neg h6, if_neg h7, if_neg h8, if_neg h9, if_neg h10]
    intro d hd
    simp only [List.mem_append, List.mem_cons] at hd
    rcases hd with (rfl | rfl | hm) | (rfl | rfl | hm)
    · decide
    · decide
    · exact hex4_ascii _ d hm
    · decide
    · decide
    · exact hex4_ascii _ d hm

theorem escapeChars_ascii (cs : List Char) :
    ∀ d ∈ escapeChars cs, d.toNat < 128 := by
  induction cs with
  | nil => intro d hd; simp [escapeChars] at hd
  | cons c rest ih =>
    intro d hd
    simp only [escapeChars, List.mem_append] at hd
    rcases hd with h | h
    · exact escChar_ascii c d h
    · exact ih d h

theorem entryJson_dump_ascii (e : FileEntry) :
    ∀ d ∈ jsonDumps (entryJson e), d.toNat < 128 := by
  simp only [entryJson, jsonDumps, dumpMembers, List.forall_mem_cons,
    List.forall_mem_append]
  repeat' apply And.intro
  all_goals first
    | decide
    | exact List.forall_mem_nil _
    | exact escapeChars_ascii _

theorem dumpMembers_files_ascii : ∀ (l : List (String × FileEntry)),
    ∀ d ∈ dumpMembers (l.map (fun q => (q.1, entryJson q.2))), d.toNat < 128
  | [] => by simp [dumpMembers]
  | [(k, e)] => by
    simp only [List.map_cons, List.map_nil, dumpMembers,
      List.forall_mem_cons, List.forall_mem_append]
    repeat' apply And.intro
    all_goals first
      | decide
      | exact List.forall_mem_nil _
      | exact escapeChars_ascii _
      | exact entryJson_dump_ascii _
  | (k, e) :: (k2, e2) :: rest => by
    have ih := dumpMembers_files_ascii ((k2, e2) :: rest)
    simp only [List.map_cons] at ih
    simp only [List.map_cons, dumpMembers, List.forall_mem_cons,
      List.forall_mem_append]
    repeat' apply And.intro
    all_goals first
      | decide
      | exact List.forall_mem_nil _
      | exact escapeChars_ascii _
      | exact entryJson_dump_ascii _
      | exact ih

theorem archiveJson_dump_ascii (a : Archive) (hmeta : a.meta3d = []) :
    ∀ d ∈ jsonDumps (archiveJson a), d.toNat < 128 := by
  obtain ⟨files, meta⟩ := a
  simp only at hmeta
  subst hmeta
  simp only [archiveJson, jsonDumps, dumpMembers, List.map_nil,
    List.forall_mem_cons, List.forall_mem_append, List.append_nil,
    List.nil_append]
  repeat' apply And.intro
  all_goals first
    | decide
    | exact List.forall_mem_nil _
    | exact escapeChars_ascii _
    | exact dumpMembers_files_ascii files

/-! ### `json.loads (json.dumps doc)` and rebuilding the archive -/

theorem jsonLoads_dump (a : Archive) (hmeta : a.meta3d = [])
    (hnodup : (a.files.map Prod.fst).Nodup) :
    jsonLoads (jsonDumps (archiveJson a)) = some (archiveJson a) := by
  have hlen := archiveJson_dump_length a
  have hp := parseValue_archive a hmeta hnodup
    ((jsonDumps (archiveJson a)).length + 1 - (6 * a.files.length + 9)) []
  rw [List.append_nil] at hp
  have hF : (jsonDumps (archiveJson a)).length + 1
      = 6 * a.files.length +
        ((jsonDumps (archiveJson a)).length + 1
          - (6 * a.files.length + 9)) + 9 := by
    omega
  simp only [jsonLoads]
  rw [hF, hp]
  simp [skipWs]

theorem extractEntry_entryJson (e : FileEntry)
    (hb : ∀ b ∈ e.content, b < 256) :
    extractEntry (entryJson e) = some e := by
  obtain ⟨t, c⟩ := e
  simp only at hb
  have hd := decodeContent_encodeContent c hb
  simp [extractEntry, entryJson, dictGet, hd]

theorem extractFiles_map (l : List (String × FileEntry))
    (hb : ∀ p ∈ l, ∀ b ∈ p.2.content, b < 256) :
    extractFiles (l.map (fun q => (q.1, entryJson q.2))) = some l := by
  induction l with
  | nil => rfl
  | cons p rest ih =>
    obtain ⟨k, e⟩ := p
    have he : extractEntry (entryJson e) = some e :=
      extractEntry_entryJson e (hb (k, e) (by simp))
    have hr := ih (fun q hq => hb q (by simp [hq]))
    simp only [List.map_cons, extractFiles, he, hr]

theorem loadJson_archiveJson (a : Archive) (hmeta : a.meta3d = [])
    (hb : ∀ p ∈ a.files, ∀ b ∈ p.2.content, b < 256) :
    loadJson (archiveJson a) = .ok a := by
  obtain ⟨files, meta⟩ := a
  simp only at hmeta
  subst hmeta
  simp only at hb
  have hf := extractFiles_map files hb
  simp [loadJson, archiveJson, dictGet, hf, extractMetas]

/-! ## Dict lemmas -/

theorem dictGet_dictSet_ne {α : Type} (l : List (String × α)) (k m : String)
    (v : α) (h : m ≠ k) : dictGet (dictSet l k v) m = dictGet l m := by
  have hk : ¬(k = m) := fun hh => h hh.symm
  induction l with
  | nil => simp [dictSet, dictGet, hk]
  | cons p rest ih =>
    cases p with
    | mk k' v' =>
      by_cases hp : k' = k
      · subst hp
        simp [dictSet, dictGet, hk]
      · simp [dictSet, dictGet, hp, ih]

theorem dictGet_dictErase {α : Type} (l : List (String × α)) (k : String) :
    dictGet (dictErase l k) k = none := by
  induction l with
  | nil => rfl
  | cons p rest ih =>
    by_cases hp : p.1 = k
    · simpa [dictErase, List.filter, hp] using ih
    · simpa [dictErase, List.filter, hp, dictGet] using ih

/-! ## Theorems about the CRUD operations -/

/-- **C9.** `remove_file` returns normally for every archive state and name —
when the entry is absent it is a silent no-op (the state is returned
unchanged), not a `NotFound` failure — and afterwards `get_file` reports the
entry absent. -/
theorem removeFile_total_and_absent (a : Archive) (name : String) :
    getFile (removeFile a name) name = none ∧
    (getFile a name = none → removeFile a name = a) := by
  constructor
  · by_cases h : (dictGet a.files name).isSome
    · simp [removeFile, h, getFile, dictGet_dictErase]
    · simp only [removeFile, h, if_false, Bool.false_eq_true]
      simp only [getFile]
      cases hd : dictGet a.files name with
      | some e => simp [hd] at h
      | none => simp
  · intro h
    have hd : dictGet a.files name = none := by
      cases hd : dictGet a.files name with
      | some e => simp [getFile, hd] at h
      | none => rfl
    simp [removeFile, hd]

theorem removeFile_total_and_absent_witness :
    getFile (removeFile emptyArchive "ghost.txt") "ghost.txt" = none ∧
    (getFile emptyArchive "ghost.txt" = none →
      removeFile emptyArchive "ghost.txt" = emptyArchive) :=
  removeFile_total_and_absent emptyArchive "ghost.txt"

/-- **C10.** `add_file` mutates at most the entry keyed by `name`: every
other key maps to the same entry (same type tag and bytes) afterwards, and
the 3D-metadata table is untouched — no matter whether the call validates
and stores (insert or replace) or raises. -/
theorem addFile_frame (a : Archive) (name m : String) (content : PyData)
    (fileType : Option String) (h : m ≠ name) :
    dictGet (addFile a name content fileType).state.files m
      = dictGet a.files m ∧
    (addFile a name content fileType).state.meta3d = a.meta3d := by
  unfold addFile
  cases hv : validateFileType (fileType.getD (extFromName name))
  · simp [hv]
  · simp [hv, dictGet_dictSet_ne _ _ _ _ h]

def frameWitnessArchive : Archive :=
  { files := [("keep.txt", { ftype := "txt", content := [1, 2] }),
              ("old.png", { ftype := "png", content := [137] })],
    meta3d := [] }

theorem addFile_frame_witness :
    dictGet (addFile frameWitnessArchive "old.png" (.bytes [9, 9])
        none).state.files "keep.txt"
      = dictGet frameWitnessArchive.files "keep.txt" ∧
    (addFile frameWitnessArchive "old.png" (.bytes [9, 9])
        none).state.meta3d = frameWitnessArchive.meta3d :=
  addFile_frame frameWitnessArchive "old.png" "keep.txt" (.bytes [9, 9]) none
    (by decide)

/-- **C2 (code bug).** The repository's own size validator rejects an
`mp4` payload one byte over the configured 500 MiB limit, yet `add_file`
accepts exactly that payload without any error and stores the entry:
`add_file` never calls `validate_file_size` (or `validate_file`), it only
checks `validate_file_type`. -/
theorem addFile_oversized_mp4_stored :
    validateFileSize (List.replicate (500 * 1024 * 1024 + 1) 0) "mp4" = false ∧
    (addFile emptyArchive "big.mp4"
        (.bytes (List.replicate (500 * 1024 * 1024 + 1) 0)) none).err
      = none ∧
    getFile (addFile emptyArchive "big.mp4"
        (.bytes (List.replicate (500 * 1024 * 1024 + 1) 0)) none).state
        "big.mp4"
      = some (List.replicate (500 * 1024 * 1024 + 1) 0) := by
  refine ⟨?_, rfl, rfl⟩
  have hlen : (List.replicate (500 * 1024 * 1024 + 1) (0 : Nat)).length
      = 500 * 1024 * 1024 + 1 := List.length_replicate _ _
  simp only [validateFileSize, hlen]
  decide

/-- **C3 (code bug).** The repository's own magic-number check rejects a
`png` whose bytes do not start with `\x89PNG` (here `b"JUNK"`), yet
`add_file("x.png", b"JUNK")` raises nothing and stores the entry:
`add_file` never runs any signature check. -/
theorem addFile_png_bad_signature_stored :
    checkMagicNumbers [74, 85, 78, 75] "png" = false ∧
    (addFile emptyArchive "x.png" (.bytes [74, 85, 78, 75]) none).err
      = none ∧
    getFile (addFile emptyArchive "x.png"
        (.bytes [74, 85, 78, 75]) none).state "x.png"
      = some [74, 85, 78, 75] := by
  refine ⟨by decide, rfl, rfl⟩

/-- **C4 (counterexample).** Adding `a.exe` does fail and stores nothing, but
the raised error is the generic unsupported-file-type `ValueError` of
`add_file` — not a distinct `RestrictedType` error. -/
theorem addFile_exe_error_is_unsupportedType :
    (addFile emptyArchive "a.exe" (.bytes []) none).err
      ≠ some .restrictedType ∧
    (addFile emptyArchive "a.exe" (.bytes []) none).err
      = some (.unsupportedType "exe") := by
  exact ⟨by decide, rfl⟩

/-- **C4 (amended).** For every entry name whose inferred extension is `exe`,
`dll`, `bat`, `sh` or `php` and every content, `add_file` fails — with the
unsupported-file-type error, since these extensions are outside
`SUPPORTED_TYPES` (they are also all in `RESTRICTED_TYPES`) — and leaves the
archive unchanged. -/
theorem addFile_restricted_ext_rejected (a : Archive) (name : String)
    (content : PyData)
    (h : extFromName name ∈ (["exe", "dll", "bat", "sh", "php"] : List String)) :
    (addFile a name content none).err
      = some (.unsupportedType (extFromName name)) ∧
    (addFile a name content none).state = a := by
  have hv : validateFileType (extFromName name) = false := by
    simp only [List.mem_cons, List.not_mem_nil, or_false] at h
    rcases h with h | h | h | h | h <;> rw [h] <;> decide
  simp [addFile, hv]

theorem addFile_restricted_ext_rejected_witness :
    (addFile emptyArchive "virus.exe" (.bytes [77, 90]) none).err
      = some (.unsupportedType (extFromName "virus.exe")) ∧
    (addFile emptyArchive "virus.exe" (.bytes [77, 90]) none).state
      = emptyArchive :=
  addFile_restricted_ext_rejected emptyArchive "virus.exe" (.bytes [77, 90])
    (by decide)

/-- **C5 (code bug).** On the 9-byte input `b"\x00" * 9` — whose first atom
declares size 0 — the atom walk of `_parse_mp4_atoms` never terminates: for
every amount of fuel the loop is still running (`pos` stays at 0 forever).
The claim asks for termination with a parse failure on every input; the code
has no progress check. -/
theorem parseMp4Atoms_zero_size_never_terminates (fuel : Nat) :
    parseMp4AtomsFuel fuel (List.replicate 9 0) 0 {} = none := by
  induction fuel with
  | zero => rfl
  | succ n ih =>
    have hstep : parseMp4AtomsFuel (n + 1) (List.replicate 9 0) 0 {}
        = parseMp4AtomsFuel n (List.replicate 9 0) 0 {} := rfl
    rw [hstep]
    exact ih

/-- `b"v 0 0 0\n"` — a minimal well-formed OBJ payload (it even passes
`_check_magic_numbers`'s `obj` predicate). -/
def cubeObjBytes : Bytes := [118, 32, 48, 32, 48, 32, 48, 10]

/-- **C6 (code bug).** `add_3d_data_model("cube.obj", ..., lod_levels := 2)`
does not create any LOD data: it raises `Unsupported 3D format: obj`
immediately, because `ext not in ArchiveCommon.MODEL_FORMATS` tests the
dict's *keys* (`static`/`animated`/`industry`), never the extension sets.
The state is unchanged, so `get_model_lod` could only ever hit the `KeyError`
path afterwards. -/
theorem add3dDataModel_cube_obj_rejected :
    (add3dDataModel emptyArchive "cube.obj" cubeObjBytes 2 false).err
      = some (.unsupported3DFormat "obj") ∧
    (add3dDataModel emptyArchive "cube.obj" cubeObjBytes 2 false).state
      = emptyArchive :=
  ⟨rfl, rfl⟩

/-- The bitrate list the spec prints for "MPEG-1 Layer III":
32,40,48,56,64,80,96,112,128,160,192,224,256,320,384 (kbps). -/
def specMpeg1Layer3Bitrates : List Nat :=
  [32, 40, 48, 56, 64, 80, 96, 112, 128, 160, 192, 224, 256, 320, 384]

/-- **C7 (counterexample).** The spec's list contains 384 kbps, but no
bitrate index at all reaches 384 000 b/s through the MPEG-1 Layer III
lookup — neither when `_get_mp3_bitrate` is called as its own index
arithmetic expects (`version = 1`, `layer = 3` selects the row commented
"MPEG 1 / Layer III") nor when it is called the way `_parse_mp3_header`
actually calls it for an MPEG-1 Layer III frame (raw header fields
`version = 3`, `layer = 1`).  So the lookup cannot map the valid indices
*onto* the spec's 15 values. -/
theorem mp3Bitrate_claim_counterexample :
    384 ∈ specMpeg1Layer3Bitrates ∧
    ((List.range 16).all (fun idx => getMp3Bitrate 1 3 idx != 384000))
      = true ∧
    ((List.range 16).all (fun idx => getMp3Bitrate 3 1 idx != 384000))
      = true := by
  exact ⟨by decide, by decide, by decide⟩

/-- **C7 (amended).** The table row labelled "MPEG 1 … Layer III" in
`_get_mp3_bitrate` (reached with `version = 1`, `layer = 3`) maps indices
0–14 to 0, 32, 40, 48, 56, 64, 80, 96, 112, 128, 160, 192, 224, 256, 320
kbps: index 0 is the free-format 0, the valid indices 1–14 give exactly the
standard MPEG-1 Layer III values, whose maximum is 320 — not 384 (384 kbps
belongs to the Layer I/II rows). -/
theorem mp3Bitrate_mpeg1_layer3_row :
    (List.range 15).map (getMp3Bitrate 1 3)
      = [0, 32, 40, 48, 56, 64, 80, 96, 112, 128, 160, 192, 224, 256,
         320].map (fun b => b * 1000) := by
  decide

/-- **C8.** With the evident intent of `MIME_TYPE_MAP` restored (the source
literal itself is a `SyntaxError` — common.py lines 70–71 lack the comma
between the `woff` and `woff2` entries; every other entry, including the
font entries `ttf` and `otf` of lines 68–69, is kept verbatim),
`get_mime_type` returns the registered strings for table extensions after
`lower().strip('.')` normalization, and `application/octet-stream` for
extensions not in the table (e.g. the supported type `tga`). -/
theorem getMimeType_woff_lookup :
    getMimeType "woff" = "font/woff" ∧
    getMimeType "woff2" = "font/woff2" ∧
    getMimeType "ttf" = "font/ttf" ∧
    getMimeType "otf" = "font/otf" ∧
    getMimeType ".PNG" = "image/png" ∧
    getMimeType "tga" = "application/octet-stream" := by
  decide

/-- **C1.** `load(save(archive))` round-trips the files mapping exactly:
for every archive whose files mapping has pairwise-distinct entry names,
arbitrary (well-formed byte) payloads and arbitrary type-tag strings — and
no 3D metadata, the scope of the files-mapping claim — `save` produces the
magic header plus the UTF-8 JSON document, and `load` accepts it and
rebuilds the identical archive: same names in the same order, same type tag
and byte-for-byte identical content for every name. -/
theorem load_save_roundtrip (a : Archive) (hmeta : a.meta3d = [])
    (hnodup : (a.files.map Prod.fst).Nodup)
    (hb : ∀ p ∈ a.files, ∀ b ∈ p.2.content, b < 256) :
    loadBytes (saveBytes a) = .ok a := by
  have hascii : ∀ c ∈ (String.mk (jsonDumps (archiveJson a))).data,
      c.toNat < 128 := by
    intro c hc
    exact archiveJson_dump_ascii a hmeta c hc
  have hdec := utf8Decode_utf8Encode_ascii
    (String.mk (jsonDumps (archiveJson a))) hascii
  have hl := jsonLoads_dump a hmeta hnodup
  have hj := loadJson_archiveJson a hmeta hb
  simp [loadBytes, saveBytes, List.take_left, List.drop_left, hdec, hl, hj]

theorem load_save_roundtrip_witness :
    loadBytes (saveBytes
        { files := [("hello.txt", { ftype := "txt", content := [104, 105] }),
                    ("img.png", { ftype := "png", content := [137, 80] })],
          meta3d := [] })
      = .ok { files :=
                [("hello.txt", { ftype := "txt", content := [104, 105] }),
                 ("img.png", { ftype := "png", content := [137, 80] })],
              meta3d := [] } :=
  load_save_roundtrip _ rfl (by decide) (by decide)

end CrudeArch
